import Mathlib

/-!
Verification of the `bonbon-common` cache package: the `Outcome` result
wrapper with its typed accessors, and the distributed timeout lock
(`TimeoutLocker.Lock`) built on the redis client's `Get` / `SetNX` /
`Expire` primitives.

Modelling conventions:
* Go `int64` durations (`time.Duration`, nanoseconds) are modelled as `Int`;
  the durations appearing in the claims are far below the `int64` range, so
  wrap-around is not modelled.
* A Go `error` is `Option GoErr`: `none` is the nil error, `GoErr` is a
  small taxonomy of the concrete error values the code distinguishes.
* A Go `interface{}` value stored in `Outcome.Primordial` is
  `Option GoValue`: `none` is the nil interface, and `GoValue` covers the
  dynamic types the cache paths under verification put there
  (string, bool, int64, float64).
* A Go `float64` is an exactly represented IEEE 754 binary64 value
  (`Float64`); `strconv.ParseFloat(s, 64)` is modelled as the correctly
  rounded conversion its exact slow path computes, with Go's syntax,
  overflow (`ErrRange`) and underflow-to-zero behavior.
-/

set_option maxRecDepth 40000
set_option exponentiation.threshold 4000

/-- The error values distinguished by the code: `redis.Nil` (key absent),
`errors.New(TypeMatchError)`, a `strconv` parse error (carrying the function
name and offending string, mirroring `strconv.NumError`), and any other
backend/communication error. -/
inductive GoErr where
  | redisNil : GoErr
  | typeMatch : GoErr
  | numError (fn : String) (s : String) : GoErr
  | other (msg : String) : GoErr
deriving DecidableEq

/-- IEEE 754 binary64 (Go `float64`) values, represented exactly:
`finite neg mant exp` denotes `(-1)^neg * mant * 2^exp` with
`mant < 2^53`; the conversion below produces the canonical encoding
(normal values with `2^52 ≤ mant`, subnormals at `exp = -1074`, zero as
`mant = 0` at `exp = -1074`). -/
inductive Float64 where
  | finite (neg : Bool) (mant : Nat) (exp : Int) : Float64
  | inf (neg : Bool) : Float64
  | nan : Float64
deriving DecidableEq

/-- Floor of log2 with explicit fuel; the fuel only has to exceed the
result, so `natLog2` passes the number itself. -/
def log2Fuel : Nat → Nat → Nat
  | 0, _ => 0
  | fuel + 1, n => if 2 ≤ n then log2Fuel fuel (n / 2) + 1 else 0

/-- `floor (log2 n)` for `n ≥ 1` (and 0 at 0), kernel-evaluable. -/
def natLog2 (n : Nat) : Nat := log2Fuel n n

/-- `2^e ≤ p/q` for naturals `p, q > 0` and an integer exponent. -/
def pow2LeRat (e : Int) (p q : Nat) : Bool :=
  if 0 ≤ e then decide (q * 2 ^ e.toNat ≤ p) else decide (q ≤ p * 2 ^ (-e).toNat)

/-- `floor (log2 (p/q))` for `p, q > 0`: the difference of the integer
logarithms is off by at most one, so test the two candidates. -/
def floorLog2Rat (p q : Nat) : Int :=
  let d : Int := (natLog2 p : Int) - (natLog2 q : Int)
  if pow2LeRat d p q then d else d - 1

/-- Round `p/q` (with `q > 0`) to the nearest natural, ties to even. -/
def roundRatNearestEven (p q : Nat) : Nat :=
  let m := p / q
  let r := p % q
  if 2 * r < q then m
  else if q < 2 * r then m + 1
  else if m % 2 = 0 then m else m + 1

/-- Round the positive rational `p/q` into binary64 (round to nearest, ties
to even), as `strconv`'s exact `decimal.floatBits` / `atofHex` conversions
do; `none` is the overflow outcome (`±Inf` with `ErrRange`). Subnormals
round at scale `2^-1074`; an underflow to zero is not an error in Go. -/
def fitBinary64 (neg : Bool) (p q : Nat) : Option Float64 :=
  let e2 := floorLog2Rat p q
  let k : Int := max (e2 - 52) (-1074)
  let mant :=
    if 0 ≤ k then roundRatNearestEven p (q * 2 ^ k.toNat)
    else roundRatNearestEven (p * 2 ^ (-k).toNat) q
  let mk : Nat × Int := if mant = 2 ^ 53 then (2 ^ 52, k + 1) else (mant, k)
  if 972 ≤ mk.2 then none
  else if mk.1 = 0 then some (Float64.finite neg 0 (-1074))
  else some (Float64.finite neg mk.1 mk.2)

/-- Convert a parsed decimal mantissa and exponent, `(-1)^neg * m * 10^e10`,
into binary64. The two cutoffs mirror the `d.dp > 310` / `d.dp < -330`
shortcuts of `strconv`'s decimal conversion: using `2^(bl-1) ≤ m < 2^bl`
and `2^(3*e) ≤ 10^e ≤ 2^(4*e)`, they fire only on values certain to
overflow (`ErrRange`) or certain to round to zero (no error), and bound the
exponents of the exact computation in between. -/
def decToF64 (neg : Bool) (m : Nat) (e10 : Int) : Option Float64 :=
  if m = 0 then some (Float64.finite neg 0 (-1074))
  else
    let bl : Int := (natLog2 m : Int) + 1
    if 0 ≤ e10 ∧ 1025 ≤ bl - 1 + 3 * e10 then none
    else if e10 < 0 ∧ 1025 ≤ bl - 1 + 4 * e10 then none
    else if e10 < 0 ∧ bl + 3 * e10 ≤ -1076 then some (Float64.finite neg 0 (-1074))
    else
      let pq : Nat × Nat :=
        if 0 ≤ e10 then (m * 10 ^ e10.toNat, 1) else (m, 10 ^ (-e10).toNat)
      fitBinary64 neg pq.1 pq.2

/-- Convert a parsed hexadecimal mantissa and binary exponent,
`(-1)^neg * m * 2^e2`, into binary64, with the same kind of certain
overflow / certain underflow cutoffs as `atofHex`. -/
def hexToF64 (neg : Bool) (m : Nat) (e2 : Int) : Option Float64 :=
  if m = 0 then some (Float64.finite neg 0 (-1074))
  else
    let bl : Int := (natLog2 m : Int) + 1
    if 1025 < bl + e2 then none
    else if bl + e2 < -1080 then some (Float64.finite neg 0 (-1074))
    else
      let pq : Nat × Nat :=
        if 0 ≤ e2 then (m * 2 ^ e2.toNat, 1) else (m, 2 ^ (-e2).toNat)
      fitBinary64 neg pq.1 pq.2

/-- ASCII lower case, as `strconv`'s `lower(c) = c | 0x20` on letters. -/
def asciiLower (c : Char) : Char :=
  if 'A' ≤ c ∧ c ≤ 'Z' then Char.ofNat (c.toNat + 32) else c

/-- `special` from `strconv.atof`, restricted to a fully consumed string as
`ParseFloat` requires: `inf` and `infinity` with optional sign, `nan`
without sign, case-insensitive. -/
def parseSpecial (s : String) : Option Float64 :=
  let t := String.mk (s.data.map asciiLower)
  if t = "inf" ∨ t = "+inf" ∨ t = "infinity" ∨ t = "+infinity" then some (Float64.inf false)
  else if t = "-inf" ∨ t = "-infinity" then some (Float64.inf true)
  else if t = "nan" then some Float64.nan
  else none

/-- Digit value of `c` in the given base (10 or 16), case-insensitive. -/
def digitValBase (base : Nat) (c : Char) : Option Nat :=
  if c.isDigit then some (c.toNat - 48)
  else if base = 16 ∧ 'a' ≤ asciiLower c ∧ asciiLower c ≤ 'f' then
    some ((asciiLower c).toNat - 87)
  else none

/-- State of the mantissa scan of `readFloat`. -/
structure MantScan where
  sawDigits : Bool
  sawDot : Bool
  mant : Nat
  frac : Nat

/-- The mantissa loop of `readFloat`: digits of the base accumulate exactly
(Go truncates to a `uint64` here but re-reads the digits exactly on the
slow conversion path), `frac` counts digits after the dot, underscores are
skipped here and validated globally by `underscoreOK`; a second dot or any
other character stops the scan. -/
def scanMant (base : Nat) : MantScan → List Char → MantScan × List Char
  | st, [] => (st, [])
  | st, c :: rest =>
    if c = '_' then scanMant base st rest
    else if c = '.' then
      if st.sawDot then (st, c :: rest)
      else scanMant base { st with sawDot := true } rest
    else
      match digitValBase base c with
      | some d =>
        scanMant base
          { st with sawDigits := true, mant := st.mant * base + d,
                    frac := if st.sawDot then st.frac + 1 else st.frac } rest
      | none => (st, c :: rest)

/-- The exponent digit loop of `readFloat`: decimal digits with embedded
underscores up to the end of the string (the exponent ends the number, so
any other character is a syntax error). -/
def scanExpDigits : Nat → List Char → Option Nat
  | e, [] => some e
  | e, c :: rest =>
    if c = '_' then scanExpDigits e rest
    else if c.isDigit then scanExpDigits (e * 10 + (c.toNat - 48)) rest
    else none

/-- `underscoreOK` from `strconv`, inner loop: underscores may appear only
between digits (the base prefix counting as a digit) and must not end the
token; `saw` is the class of the previous character. -/
def underscoreOKCore (hx : Bool) : Char → List Char → Bool
  | saw, [] => decide (saw ≠ '_')
  | saw, c :: r =>
    if (digitValBase (if hx then 16 else 10) c).isSome then underscoreOKCore hx '0' r
    else if c = '_' then decide (saw = '0') && underscoreOKCore hx '_' r
    else if saw = '_' then false
    else underscoreOKCore hx '!' r

/-- `underscoreOK` from `strconv`: optional sign, optional `0b`/`0o`/`0x`
base prefix, then the character classes of the loop above. -/
def underscoreOK (s : String) : Bool :=
  let cs :=
    match s.data with
    | '+' :: r => r
    | '-' :: r => r
    | r => r
  match cs with
  | '0' :: b :: r =>
    if asciiLower b = 'b' ∨ asciiLower b = 'o' ∨ asciiLower b = 'x' then
      underscoreOKCore (asciiLower b = 'x') '0' r
    else underscoreOKCore false '^' cs
  | _ => underscoreOKCore false '^' cs

/-- `readFloat` from `strconv`, restricted to a fully consumed string as
`ParseFloat` requires: optional sign; `0x`/`0X` prefix (with at least one
following character, as Go's `i+2 < len(s)` guard) selects base 16 with a
mandatory `p` exponent; mantissa digits with at most one dot and at least
one digit; optional (for base 10) `e`/`E` exponent with optional sign and
at least one leading digit. Result: sign, mantissa digits as an exact
natural, the exponent of 10 (decimal) or of 2 (hex, `p`-exponent minus four
per fractional hex digit), and the hex flag. -/
def parseFloatNumber (cs0 : List Char) : Option (Bool × Nat × Int × Bool) :=
  let sn : Bool × List Char :=
    match cs0 with
    | '+' :: r => (false, r)
    | '-' :: r => (true, r)
    | r => (false, r)
  let hx : Bool × List Char :=
    match sn.2 with
    | '0' :: x :: c :: r =>
      if asciiLower x = 'x' then (true, c :: r) else (false, sn.2)
    | _ => (false, sn.2)
  let base := if hx.1 then 16 else 10
  let expChar := if hx.1 then 'p' else 'e'
  let sc := scanMant base ⟨false, false, 0, 0⟩ hx.2
  if sc.1.sawDigits = false then none
  else
    let eOpt : Option Int :=
      match sc.2 with
      | [] => if hx.1 then none else some 0
      | c :: r =>
        if asciiLower c = expChar then
          let es : Bool × List Char :=
            match r with
            | '+' :: rr => (false, rr)
            | '-' :: rr => (true, rr)
            | rr => (false, rr)
          match es.2 with
          | d :: _ =>
            if d.isDigit then
              match scanExpDigits 0 es.2 with
              | some e => some (if es.1 then -(e : Int) else (e : Int))
              | none => none
            else none
          | [] => none
        else none
    match eOpt with
    | none => none
    | some e =>
      if hx.1 then some (sn.1, sc.1.mant, e - 4 * (sc.1.frac : Int), true)
      else some (sn.1, sc.1.mant, e - (sc.1.frac : Int), false)

/-- `strconv.ParseFloat(s, 64)` : specials first, then the number syntax
with the underscore validation, then the correctly rounded conversion;
`none` stands for a non-nil error (syntax, or overflow's `ErrRange` — an
underflow to zero is not an error). -/
def parseFloat64 (s : String) : Option Float64 :=
  match parseSpecial s with
  | some f => some f
  | none =>
    match parseFloatNumber s.data with
    | none => none
    | some r =>
      if s.data.contains '_' && !underscoreOK s then none
      else if r.2.2.2 then hexToF64 r.1 r.2.1 r.2.2.1
      else decToF64 r.1 r.2.1 r.2.2.1

/-- Dynamic values stored in `Outcome.Primordial` on the verified paths:
string, bool, int64 and float64. -/
inductive GoValue where
  | vStr (s : String) : GoValue
  | vBool (b : Bool) : GoValue
  | vInt (i : Int) : GoValue
  | vFloat (f : Float64) : GoValue
deriving DecidableEq

/-- `const Null = ""` from the source. -/
def Null : String := ""

/-- `const TypeMatchError = "type match error"` from the source; the error
value `errors.New(TypeMatchError)` is modelled as `GoErr.typeMatch`. -/
def TypeMatchError : String := "type match error"

/-- `Outcome` : the uniform result wrapper `{ Error error; Primordial interface{} }`. -/
structure Outcome where
  Error : Option GoErr
  Primordial : Option GoValue
deriving DecidableEq

/-- Decimal digits of `strconv.ParseInt` base 10: every character must be a
digit `0`-`9`; returns the accumulated value, or `none` on the first
non-digit. -/
def digitsVal (cs : List Char) : Option Nat :=
  cs.foldlM (fun acc c => if c.isDigit then some (acc * 10 + (c.toNat - 48)) else none) 0

/-- `strconv.ParseInt(s, 10, 64)` : optional sign, at least one decimal
digit, result within the `int64` range; `none` stands for a non-nil error
(syntax or range). -/
def parseInt64 (s : String) : Option Int :=
  let sd : Int × List Char :=
    match s.data with
    | '+' :: rest => (1, rest)
    | '-' :: rest => (-1, rest)
    | cs => (1, cs)
  match sd.2 with
  | [] => none
  | _ :: _ =>
    match digitsVal sd.2 with
    | none => none
    | some n =>
      let v : Int := sd.1 * (n : Int)
      -- int64 range: -2^63 .. 2^63 - 1
      if -(9223372036854775808 : Int) ≤ v ∧ v ≤ (9223372036854775807 : Int) then some v
      else none

/-- `strconv.ParseBool` : accepts exactly the Go literals. -/
def parseBool (s : String) : Option Bool :=
  if s = "1" ∨ s = "t" ∨ s = "T" ∨ s = "true" ∨ s = "TRUE" ∨ s = "True" then some true
  else if s = "0" ∨ s = "f" ∨ s = "F" ∨ s = "false" ∨ s = "FALSE" ∨ s = "False" then
    some false
  else none

/-- `Outcome.GetInt64` : native `int64` first, then string parse, else the
`TypeMatchError`. A failed parse propagates the `strconv` error. -/
def Outcome.GetInt64 (oc : Outcome) : Int × Option GoErr :=
  match oc.Primordial with
  | some (GoValue.vInt it) => (it, none)
  | some (GoValue.vStr str) =>
    match parseInt64 str with
    | some value => (value, none)
    | none => (0, some (GoErr.numError "ParseInt" str))
  | _ => (0, some GoErr.typeMatch)

/-- `Outcome.GetString` : native string, else the `TypeMatchError`. -/
def Outcome.GetString (oc : Outcome) : String × Option GoErr :=
  match oc.Primordial with
  | some (GoValue.vStr str) => (str, none)
  | _ => (Null, some GoErr.typeMatch)

/-- `Outcome.GetBool` : native `bool` first, then string parse, else the
`TypeMatchError`. A failed parse propagates the `strconv` error. -/
def Outcome.GetBool (oc : Outcome) : Bool × Option GoErr :=
  match oc.Primordial with
  | some (GoValue.vBool bol) => (bol, none)
  | some (GoValue.vStr str) =>
    match parseBool str with
    | some value => (value, none)
    | none => (false, some (GoErr.numError "ParseBool" str))
  | _ => (false, some GoErr.typeMatch)

/-- `Outcome.GetFloat64` : native `float64` first, then string parse via
`strconv.ParseFloat(str, 64)`, else the `TypeMatchError`. A failed parse
(syntax error, or overflow's `ErrRange`) propagates the `strconv` error
together with the zero value. -/
def Outcome.GetFloat64 (oc : Outcome) : Float64 × Option GoErr :=
  match oc.Primordial with
  | some (GoValue.vFloat flot) => (flot, none)
  | some (GoValue.vStr str) =>
    match parseFloat64 str with
    | some value => (value, none)
    | none => (Float64.finite false 0 (-1074), some (GoErr.numError "ParseFloat" str))
  | _ => (Float64.finite false 0 (-1074), some GoErr.typeMatch)

example : parseFloat64 "1" = some (Float64.finite false 4503599627370496 (-52)) := by decide
example : parseFloat64 "1.5" = some (Float64.finite false 6755399441055744 (-52)) := by decide
example : parseFloat64 "0.1" = some (Float64.finite false 7205759403792794 (-56)) := by decide
example : parseFloat64 ".5" = some (Float64.finite false 4503599627370496 (-53)) := by decide
example : parseFloat64 "1." = some (Float64.finite false 4503599627370496 (-52)) := by decide
example : parseFloat64 "-0" = some (Float64.finite true 0 (-1074)) := by decide
example : parseFloat64 "1_000.5" = some (Float64.finite false 8800491068719104 (-43)) := by
  decide
example : parseFloat64 "5e-324" = some (Float64.finite false 1 (-1074)) := by decide
example : parseFloat64 "1e-324" = some (Float64.finite false 0 (-1074)) := by decide
example : parseFloat64 "1.7976931348623157e308"
    = some (Float64.finite false 9007199254740991 971) := by decide
example : parseFloat64 "1.7976931348623159e308" = none := by decide
example : parseFloat64 "1e309" = none := by decide
example : parseFloat64 "0x1p-2" = some (Float64.finite false 4503599627370496 (-54)) := by
  decide
example : parseFloat64 "0x1.00000000000008p0"
    = some (Float64.finite false 4503599627370496 (-52)) := by decide
example : parseFloat64 "0x1.00000000000018p0"
    = some (Float64.finite false 4503599627370498 (-52)) := by decide
example : parseFloat64 "inf" = some (Float64.inf false) := by decide
example : parseFloat64 "-Infinity" = some (Float64.inf true) := by decide
example : parseFloat64 "NaN" = some Float64.nan := by decide
example : parseFloat64 "+nan" = none := by decide
example : parseFloat64 "" = none := by decide
example : parseFloat64 "." = none := by decide
example : parseFloat64 "1e" = none := by decide
example : parseFloat64 "1e+" = none := by decide
example : parseFloat64 "1.2.3" = none := by decide
example : parseFloat64 "0x1" = none := by decide
example : parseFloat64 "1__0" = none := by decide
example : parseFloat64 "1_" = none := by decide
example : parseFloat64 "_1" = none := by decide
example : Outcome.GetFloat64 ⟨none, some (GoValue.vStr "abc")⟩
    = (Float64.finite false 0 (-1074), some (GoErr.numError "ParseFloat" "abc")) := by decide
example : Outcome.GetFloat64 ⟨none, some (GoValue.vInt 3)⟩
    = (Float64.finite false 0 (-1074), some GoErr.typeMatch) := by decide

example : Outcome.GetInt64 ⟨none, some (GoValue.vStr "42")⟩ = (42, none) := by decide
example : Outcome.GetInt64 ⟨none, some (GoValue.vStr "abc")⟩
    = (0, some (GoErr.numError "ParseInt" "abc")) := by decide
example : Outcome.GetInt64 ⟨none, some (GoValue.vStr "-7")⟩ = (-7, none) := by decide
example : Outcome.GetBool ⟨none, some (GoValue.vStr "True")⟩ = (true, none) := by decide
example : Outcome.GetBool ⟨none, none⟩ = (false, some GoErr.typeMatch) := by decide
example : parseInt64 "9223372036854775808" = none := by decide
example : parseInt64 "+12" = some 12 := by decide
example : parseInt64 "" = none := by decide
example : parseInt64 "-" = none := by decide

/-- The three cache primitives the lock consumes, over an abstract backend
state `σ`. In the source these are the methods of the process-wide
`RedisClient` obtained via `GetRedis()`; the state is passed explicitly. -/
structure Backend (σ : Type) where
  get : σ → String → σ × Outcome
  setNX : σ → String → String → Int → σ × Outcome
  expire : σ → String → Int → σ × Outcome

/-- Event log of the cache calls a `Lock` run performs, at the `Cache`
interface level (key, value and expiration exactly as passed by `Lock`). -/
inductive BackendOp where
  | get (key : String) : BackendOp
  | setNX (key : String) (value : String) (expiration : Int) : BackendOp
  | expire (key : String) (duration : Int) : BackendOp
deriving DecidableEq

/-- `TimeoutLocker { TimeOut time.Duration; ReUse bool }`. -/
structure TimeoutLocker where
  TimeOut : Int
  ReUse : Bool
deriving DecidableEq

/-- `NewTimeOutLock`. -/
def NewTimeOutLock (timeout : Int) (reuse : Bool) : TimeoutLocker :=
  { TimeOut := timeout, ReUse := reuse }

/-- `TimeoutLocker.Lock(name, topic)` from `src/cache/timeout_lock.go`,
instrumented to also return the backend state it leaves behind and the list
of cache calls it performed. The control flow mirrors the Go line by line:
`bol && err == nil` becomes `GetBool.1 && GetBool.2.isNone`, and
`err == nil && str != topic` becomes `GetString.2 = none ∧ GetString.1 ≠ topic`. -/
def TimeoutLocker.Lock {σ : Type} (tl : TimeoutLocker) (redis : Backend σ)
    (s0 : σ) (name : String) (topic : String) : σ × Bool × List BackendOp :=
  let g := redis.get s0 name
  match g.2.Error with
  | some err =>
    if err = GoErr.redisNil then
      let nx := redis.setNX g.1 name topic tl.TimeOut
      (nx.1, nx.2.GetBool.1 && nx.2.GetBool.2.isNone,
        [BackendOp.get name, BackendOp.setNX name topic tl.TimeOut])
    else
      (g.1, false, [BackendOp.get name])
  | none =>
    let gs := g.2.GetString
    if gs.2 = none ∧ gs.1 ≠ topic then
      (g.1, false, [BackendOp.get name])
    else if !tl.ReUse then
      (g.1, false, [BackendOp.get name])
    else
      let ex := redis.expire g.1 name tl.TimeOut
      if ex.2.GetBool.1 && ex.2.GetBool.2.isNone then
        let la := redis.get ex.1 name
        (la.1,
          (match la.2.Error with
           | none => decide (la.2.GetString.2 = none ∧ la.2.GetString.1 = topic)
           | some _ => false),
          [BackendOp.get name, BackendOp.expire name tl.TimeOut, BackendOp.get name])
      else
        let nx := redis.setNX ex.1 name topic tl.TimeOut
        (nx.1, nx.2.GetBool.1 && nx.2.GetBool.2.isNone,
          [BackendOp.get name, BackendOp.expire name tl.TimeOut,
           BackendOp.setNX name topic tl.TimeOut])

/-- Arbitrary per-call results of the four backend calls a `Lock` run can
make, used to reason about the lock control flow under every possible
backend response. -/
structure OracleOutcomes where
  getOut : Outcome
  setNXOut : Outcome
  expireOut : Outcome
  afterOut : Outcome
deriving DecidableEq

/-- Backend that answers from an `OracleOutcomes` script; the `Bool` state
records whether the initial `get` already happened, so the confirmation
re-read receives `afterOut`. -/
def oracle (o : OracleOutcomes) : Backend Bool :=
  { get := fun seen _ => (true, if seen then o.afterOut else o.getOut)
  , setNX := fun seen _ _ _ => (seen, o.setNXOut)
  , expire := fun seen _ _ => (seen, o.expireOut) }

/-- A `Lock` run against the oracle backend. -/
def lockO (tl : TimeoutLocker) (o : OracleOutcomes) (name topic : String) :
    Bool × Bool × List BackendOp :=
  tl.Lock (oracle o) false name topic

/-- The boolean `Lock` returns, oracle backend. -/
def lockOResult (tl : TimeoutLocker) (o : OracleOutcomes) (name topic : String) : Bool :=
  (lockO tl o name topic).2.1

/-- The cache calls performed, oracle backend. -/
def lockOTrace (tl : TimeoutLocker) (o : OracleOutcomes) (name topic : String) :
    List BackendOp :=
  (lockO tl o name topic).2.2

/-- The redis key space: association list from (namespaced) key to stored
string value and absolute expiry instant (nanoseconds). An entry whose
expiry is not in the future is dead: redis treats the key as absent. -/
abbrev RedisStore : Type := List (String × String × Int)

/-- First entry for a key, value and expiry instant, dead or alive. -/
def storeLookup : RedisStore → String → Option (String × Int)
  | [], _ => none
  | (k, v, e) :: rest, key => if k = key then some (v, e) else storeLookup rest key

/-- Write a key: replace its entry when present, append otherwise. -/
def storeSet : RedisStore → String → String → Int → RedisStore
  | [], key, v, e => [(key, v, e)]
  | (k, v0, e0) :: rest, key, v, e =>
    if k = key then (key, v, e) :: rest else (k, v0, e0) :: storeSet rest key v e

/-- Value a key holds at instant `now`: its stored value when the entry is
alive (`now` before the expiry), absent otherwise. -/
def liveVal (st : RedisStore) (now : Int) (key : String) : Option String :=
  match storeLookup st key with
  | some (v, e) => if now < e then some v else none
  | none => none

/-- Raw redis commands reaching the store, with the key, value and TTL
actually handed over by the `RedisClient` wrappers (the TTL of `SETNX`
includes the client's drift; `EXPIRE` is passed through unchanged). -/
inductive RawOp where
  | rawGet (hook : String) : RawOp
  | rawSetNX (hook : String) (value : String) (ttl : Int) : RawOp
  | rawExpire (hook : String) (ttl : Int) : RawOp
deriving DecidableEq

/-- Backend state threaded through a run: the key space plus the log of raw
redis commands issued so far. -/
abbrev RedisWorld : Type := RedisStore × List RawOp

/-- The `RedisClient` configuration a `Lock` run depends on: the two
namespacing options (`opt.AppName`, `opt.NameSpace`), the instant at which
the run's redis commands execute, and the value `rand.Int63n(60)` yields
inside `Drift` during the run. Connections, pooling and topology are not
modelled: at this level every command deterministically reaches the store. -/
structure RedisClient where
  app : String
  ns : String
  now : Int
  drift : Int
deriving DecidableEq

/-- `RedisClient.GetKey` : `fmt.Sprintf("%s-%s-%v", AppName, NameSpace, raw)`. -/
def RedisClient.GetKey (rc : RedisClient) (raw : String) : String :=
  rc.app ++ "-" ++ rc.ns ++ "-" ++ raw

/-- `RedisClient.Drift` : `duration + rand.Int63n(60)` nanoseconds; the
random summand is the client's `drift` field. -/
def RedisClient.Drift (rc : RedisClient) (duration : Int) : Int :=
  duration + rc.drift

/-- `RedisClient.Get` : `GET` on the namespaced key; a live entry yields its
string value, otherwise `redis.Nil`. -/
def RedisClient.Get (rc : RedisClient) (w : RedisWorld) (key : String) :
    RedisWorld × Outcome :=
  let hook := rc.GetKey key
  match liveVal w.1 rc.now hook with
  | some v => ((w.1, w.2 ++ [RawOp.rawGet hook]), ⟨none, some (GoValue.vStr v)⟩)
  | none => ((w.1, w.2 ++ [RawOp.rawGet hook]), ⟨some GoErr.redisNil, none⟩)

/-- `RedisClient.SetNX` : `SETNX` on the namespaced key with TTL
`Drift(expiration)`; succeeds (and writes value and expiry) only when the
key is absent or dead. `GetValue` is the identity on the string values used
here. -/
def RedisClient.SetNX (rc : RedisClient) (w : RedisWorld) (key : String)
    (value : String) (expiration : Int) : RedisWorld × Outcome :=
  let hook := rc.GetKey key
  let ttl := rc.Drift expiration
  match liveVal w.1 rc.now hook with
  | some _ => ((w.1, w.2 ++ [RawOp.rawSetNX hook value ttl]),
      ⟨none, some (GoValue.vBool false)⟩)
  | none => ((storeSet w.1 hook value (rc.now + ttl), w.2 ++ [RawOp.rawSetNX hook value ttl]),
      ⟨none, some (GoValue.vBool true)⟩)

/-- `RedisClient.Expire` : `EXPIRE` on the namespaced key with the duration
passed through unchanged; refreshes the expiry of a live entry, reports
false on an absent or dead key. -/
def RedisClient.Expire (rc : RedisClient) (w : RedisWorld) (key : String)
    (duration : Int) : RedisWorld × Outcome :=
  let hook := rc.GetKey key
  match liveVal w.1 rc.now hook with
  | some v => ((storeSet w.1 hook v (rc.now + duration), w.2 ++ [RawOp.rawExpire hook duration]),
      ⟨none, some (GoValue.vBool true)⟩)
  | none => ((w.1, w.2 ++ [RawOp.rawExpire hook duration]),
      ⟨none, some (GoValue.vBool false)⟩)

/-- The `Cache` interface as implemented by `RedisClient`. -/
def RedisClient.backend (rc : RedisClient) : Backend RedisWorld :=
  { get := rc.Get
  , setNX := fun w key value expiration => rc.SetNX w key value expiration
  , expire := fun w key duration => rc.Expire w key duration }

/-- A `Lock` run against the redis-state backend, starting from store `st`
with an empty command log. -/
def lockRun (tl : TimeoutLocker) (rc : RedisClient) (st : RedisStore)
    (name topic : String) : RedisWorld × Bool × List BackendOp :=
  tl.Lock rc.backend (st, []) name topic

/-- The boolean `Lock` returns, redis-state backend. -/
def lockSResult (tl : TimeoutLocker) (rc : RedisClient) (st : RedisStore)
    (name topic : String) : Bool :=
  (lockRun tl rc st name topic).2.1

/-- The store a run leaves behind. -/
def lockSStore (tl : TimeoutLocker) (rc : RedisClient) (st : RedisStore)
    (name topic : String) : RedisStore :=
  (lockRun tl rc st name topic).1.1

/-- The raw redis commands a run issued. -/
def lockSRawTrace (tl : TimeoutLocker) (rc : RedisClient) (st : RedisStore)
    (name topic : String) : List RawOp :=
  (lockRun tl rc st name topic).1.2

example : lockSResult (NewTimeOutLock 5 true) ⟨"app", "ns", 0, 0⟩ [] "k" "A" = true := by decide
example : lockSStore (NewTimeOutLock 5 true) ⟨"app", "ns", 0, 0⟩ [] "k" "A"
    = [("app-ns-k", "A", 5)] := by decide
example : lockSResult (NewTimeOutLock 5 true) ⟨"app", "ns", 3, 0⟩ [("app-ns-k", "A", 5)] "k" "B"
    = false := by decide
example : lockSResult (NewTimeOutLock 5 true) ⟨"app", "ns", 5, 0⟩ [("app-ns-k", "A", 5)] "k" "B"
    = true := by decide
example : lockSResult (NewTimeOutLock 5 true) ⟨"app", "ns", 3, 0⟩ [("app-ns-k", "A", 5)] "k" "A"
    = true := by decide
example : lockSResult (NewTimeOutLock 5 false) ⟨"app", "ns", 3, 0⟩ [("app-ns-k", "A", 5)] "k" "A"
    = false := by decide
example : lockSRawTrace (NewTimeOutLock 5 true) ⟨"app", "ns", 3, 0⟩ [("app-ns-k", "A", 5)] "k" "A"
    = [RawOp.rawGet "app-ns-k", RawOp.rawExpire "app-ns-k" 5, RawOp.rawGet "app-ns-k"] := by decide
example : lockSStore (NewTimeOutLock 5 true) ⟨"app", "ns", 3, 0⟩ [("app-ns-k", "A", 5)] "k" "A"
    = [("app-ns-k", "A", 8)] := by decide

theorem storeLookup_storeSet (st : RedisStore) (key qk : String) (v : String) (e : Int) :
    storeLookup (storeSet st key v e) qk
      = if key = qk then some (v, e) else storeLookup st qk := by
  induction st with
  | nil =>
    by_cases h : key = qk <;> simp [storeSet, storeLookup, h]
  | cons hd rest ih =>
    obtain ⟨k0, v0, e0⟩ := hd
    by_cases hk : k0 = key
    · subst hk
      by_cases h : k0 = qk <;> simp [storeSet, storeLookup, h]
    · by_cases h : k0 = qk
      · subst h
        have : ¬ key = k0 := fun hc => hk hc.symm
        simp [storeSet, storeLookup, hk, this]
      · simp [storeSet, storeLookup, hk, h, ih]

/-- Path characterization: key absent (or dead) at call time. `Lock` takes
the `redis.Nil` branch, performs a successful `SETNX` with the drifted TTL,
and returns true. -/
theorem lockRun_absent (tl : TimeoutLocker) (rc : RedisClient) (st : RedisStore)
    (name topic : String) (h : liveVal st rc.now (rc.GetKey name) = none) :
    lockRun tl rc st name topic =
      ((storeSet st (rc.GetKey name) topic (rc.now + rc.Drift tl.TimeOut),
        [RawOp.rawGet (rc.GetKey name), RawOp.rawSetNX (rc.GetKey name) topic (rc.Drift tl.TimeOut)]),
       true,
       [BackendOp.get name, BackendOp.setNX name topic tl.TimeOut]) := by
  simp [lockRun, TimeoutLocker.Lock, RedisClient.backend, RedisClient.Get, RedisClient.SetNX,
        h, Outcome.GetBool]

/-- Path characterization: key alive with a foreign value. `Lock` rejects
with no write. -/
theorem lockRun_held_foreign (tl : TimeoutLocker) (rc : RedisClient) (st : RedisStore)
    (name topic v : String) (h : liveVal st rc.now (rc.GetKey name) = some v)
    (hv : v ≠ topic) :
    lockRun tl rc st name topic =
      ((st, [RawOp.rawGet (rc.GetKey name)]), false, [BackendOp.get name]) := by
  simp [lockRun, TimeoutLocker.Lock, RedisClient.backend, RedisClient.Get, h,
        Outcome.GetString, hv]

/-- Path characterization: key alive with the caller's own value but reuse
disabled. `Lock` rejects with no write. -/
theorem lockRun_held_noreuse (tl : TimeoutLocker) (rc : RedisClient) (st : RedisStore)
    (name topic : String) (h : liveVal st rc.now (rc.GetKey name) = some topic)
    (hre : tl.ReUse = false) :
    lockRun tl rc st name topic =
      ((st, [RawOp.rawGet (rc.GetKey name)]), false, [BackendOp.get name]) := by
  simp [lockRun, TimeoutLocker.Lock, RedisClient.backend, RedisClient.Get, h,
        Outcome.GetString, hre]

/-- Path characterization: key alive with the caller's own value and reuse
enabled. The `EXPIRE` refresh succeeds, the entry's expiry becomes
`now + TimeOut`, and the confirmation re-read succeeds exactly when the
refreshed entry is alive, i.e. when the lease is positive. -/
theorem lockRun_held_reuse (tl : TimeoutLocker) (rc : RedisClient) (st : RedisStore)
    (name topic : String) (h : liveVal st rc.now (rc.GetKey name) = some topic)
    (hre : tl.ReUse = true) :
    lockRun tl rc st name topic =
      ((storeSet st (rc.GetKey name) topic (rc.now + tl.TimeOut),
        [RawOp.rawGet (rc.GetKey name), RawOp.rawExpire (rc.GetKey name) tl.TimeOut,
         RawOp.rawGet (rc.GetKey name)]),
       decide (rc.now < rc.now + tl.TimeOut),
       [BackendOp.get name, BackendOp.expire name tl.TimeOut, BackendOp.get name]) := by
  have hl : liveVal (storeSet st (rc.GetKey name) topic (rc.now + tl.TimeOut)) rc.now
      (rc.GetKey name)
      = if rc.now < rc.now + tl.TimeOut then some topic else none := by
    simp [liveVal, storeLookup_storeSet]
  by_cases hTO : rc.now < rc.now + tl.TimeOut
  · simp only [hTO, if_true] at hl
    simp [lockRun, TimeoutLocker.Lock, RedisClient.backend, RedisClient.Get,
          RedisClient.Expire, h, hl, Outcome.GetString, Outcome.GetBool, hre, hTO]
  · simp only [hTO, if_false] at hl
    simp [lockRun, TimeoutLocker.Lock, RedisClient.backend, RedisClient.Get,
          RedisClient.Expire, h, hl, Outcome.GetString, Outcome.GetBool, hre, hTO]

/-- A run that returns true leaves a live entry holding the caller's own
token under the run's namespaced key. -/
theorem lockS_true_entry (tl : TimeoutLocker) (rc : RedisClient) (st : RedisStore)
    (name topic : String) (hTO : 0 < tl.TimeOut) (hr : 0 ≤ rc.drift)
    (hlock : lockSResult tl rc st name topic = true) :
    ∃ e, storeLookup (lockSStore tl rc st name topic) (rc.GetKey name) = some (topic, e)
      ∧ rc.now < e := by
  cases hL : liveVal st rc.now (rc.GetKey name) with
  | none =>
    refine ⟨rc.now + rc.Drift tl.TimeOut, ?_, ?_⟩
    · simp [lockSStore, lockRun_absent tl rc st name topic hL, storeLookup_storeSet]
    · simp only [RedisClient.Drift]
      omega
  | some v =>
    by_cases hv : v = topic
    · subst hv
      cases hre : tl.ReUse with
      | false =>
        exfalso
        simp [lockSResult, lockRun_held_noreuse tl rc st name v hL hre] at hlock
      | true =>
        refine ⟨rc.now + tl.TimeOut, ?_, by omega⟩
        simp [lockSStore, lockRun_held_reuse tl rc st name v hL hre, storeLookup_storeSet]
    · exfalso
      simp [lockSResult, lockRun_held_foreign tl rc st name topic v hL hv] at hlock

/-- Against a store whose entry for the key holds a foreign value, a run
returns true exactly when that entry has already expired. -/
theorem lockS_result_on_held (tl : TimeoutLocker) (rc : RedisClient) (st : RedisStore)
    (name topic v : String) (e : Int)
    (h : storeLookup st (rc.GetKey name) = some (v, e)) (hv : v ≠ topic) :
    lockSResult tl rc st name topic = decide (e ≤ rc.now) := by
  by_cases hlt : rc.now < e
  · have hL : liveVal st rc.now (rc.GetKey name) = some v := by
      simp [liveVal, h, hlt]
    have : ¬ (e ≤ rc.now) := by omega
    simp [lockSResult, lockRun_held_foreign tl rc st name topic v hL hv, this]
  · have hL : liveVal st rc.now (rc.GetKey name) = none := by
      simp [liveVal, h, hlt]
    have : e ≤ rc.now := by omega
    simp [lockSResult, lockRun_absent tl rc st name topic hL, this]

/-- C1 (mutual exclusion): if `Lock(name, A)` returns true, the entry it
leaves behind holds `A` with an expiry still in the future, and a
`Lock(name, B)` with `B ≠ A` run against the resulting store — at any
instant `t` and with any drift `rB` — returns false exactly as long as that
entry has not expired, and true once it has. -/
theorem lock_mutual_exclusion (tl : TimeoutLocker) (rcA : RedisClient) (st : RedisStore)
    (name A B : String) (e t rB : Int)
    (hTO : 0 < tl.TimeOut) (hrA : 0 ≤ rcA.drift) (hAB : B ≠ A)
    (hlock : lockSResult tl rcA st name A = true)
    (hentry : storeLookup (lockSStore tl rcA st name A) (rcA.GetKey name) = some (A, e)) :
    rcA.now < e ∧
      lockSResult tl (RedisClient.mk rcA.app rcA.ns t rB) (lockSStore tl rcA st name A)
          name B
        = decide (e ≤ t) := by
  obtain ⟨e2, he2, hlt⟩ := lockS_true_entry tl rcA st name A hTO hrA hlock
  rw [hentry] at he2
  have hee : e = e2 := by simpa using he2
  subst hee
  refine ⟨hlt, ?_⟩
  have hk : (RedisClient.mk rcA.app rcA.ns t rB).GetKey name = rcA.GetKey name := rfl
  exact lockS_result_on_held tl (RedisClient.mk rcA.app rcA.ns t rB)
    (lockSStore tl rcA st name A) name B A e (by rw [hk]; exact hentry) (Ne.symm hAB)

theorem lock_mutual_exclusion_witness :
    lockSResult (NewTimeOutLock 5 true) (RedisClient.mk "app" "ns" 0 0) [] "k" "A" = true ∧
    ((RedisClient.mk "app" "ns" 0 0).now < 5 ∧
      lockSResult (NewTimeOutLock 5 true) (RedisClient.mk "app" "ns" 3 0)
          (lockSStore (NewTimeOutLock 5 true) (RedisClient.mk "app" "ns" 0 0) [] "k" "A")
          "k" "B"
        = decide ((5 : Int) ≤ 3)) :=
  ⟨by decide,
    lock_mutual_exclusion (NewTimeOutLock 5 true) (RedisClient.mk "app" "ns" 0 0) [] "k"
      "A" "B" 5 3 0 (by decide) (by decide) (by decide) (by decide) (by decide)⟩

/-- Per-command TTL check: `EXPIRE` must carry the configured lease
unchanged, `SETNX` the lease plus the drift the client's `Drift` added. -/
def leaseRespected (lease drift : Int) : RawOp → Bool
  | RawOp.rawGet _ => true
  | RawOp.rawSetNX _ _ d => decide (d = lease + drift)
  | RawOp.rawExpire _ d => decide (d = lease)

/-- C8 (amended): on the expiry-refresh path the TTL handed to redis equals
the configured lease exactly; on the set-if-absent paths it equals the lease
plus the run's random drift, hence lies in `[lease, lease + 60)` since
`rand.Int63n(60)` yields a value in `[0, 60)`. -/
theorem lock_lease_with_drift (tl : TimeoutLocker) (rc : RedisClient) (st : RedisStore)
    (name topic : String) (hr : 0 ≤ rc.drift) (hr2 : rc.drift < 60) :
    (lockSRawTrace tl rc st name topic).all (leaseRespected tl.TimeOut rc.drift) = true ∧
    tl.TimeOut ≤ rc.Drift tl.TimeOut ∧ rc.Drift tl.TimeOut < tl.TimeOut + 60 := by
  constructor
  · cases hL : liveVal st rc.now (rc.GetKey name) with
    | none =>
      simp [lockSRawTrace, lockRun_absent tl rc st name topic hL, leaseRespected,
            RedisClient.Drift]
    | some v =>
      by_cases hv : v = topic
      · subst hv
        cases hre : tl.ReUse with
        | false =>
          simp [lockSRawTrace, lockRun_held_noreuse tl rc st name v hL hre, leaseRespected]
        | true =>
          simp [lockSRawTrace, lockRun_held_reuse tl rc st name v hL hre, leaseRespected]
      · simp [lockSRawTrace, lockRun_held_foreign tl rc st name topic v hL hv, leaseRespected]
  · unfold RedisClient.Drift
    omega

theorem lock_lease_with_drift_witness :
    (0 : Int) ≤ (RedisClient.mk "app" "ns" 0 1).drift ∧
    (RedisClient.mk "app" "ns" 0 1).drift < 60 ∧
    ((lockSRawTrace (NewTimeOutLock 5 false) (RedisClient.mk "app" "ns" 0 1) [] "k" "t").all
        (leaseRespected (NewTimeOutLock 5 false).TimeOut (RedisClient.mk "app" "ns" 0 1).drift)
      = true ∧
      (NewTimeOutLock 5 false).TimeOut
          ≤ (RedisClient.mk "app" "ns" 0 1).Drift (NewTimeOutLock 5 false).TimeOut ∧
      (RedisClient.mk "app" "ns" 0 1).Drift (NewTimeOutLock 5 false).TimeOut
          < (NewTimeOutLock 5 false).TimeOut + 60) :=
  ⟨by decide, by decide,
    lock_lease_with_drift (NewTimeOutLock 5 false) (RedisClient.mk "app" "ns" 0 1) [] "k" "t"
      (by decide) (by decide)⟩

/-- C8 counterexample: with lease 5 and a drift of 1 (one of the values
`rand.Int63n(60)` yields), the uncontended acquisition hands redis a `SETNX`
TTL of 6, not the configured lease 5, while a run of the same configuration
with drift 0 hands over 5 — so the TTL is not the lease, and two
acquisitions with the same configured lease request different TTLs. -/
theorem lock_lease_drift_counterexample :
    (NewTimeOutLock 5 false).TimeOut = 5 ∧
    lockSRawTrace (NewTimeOutLock 5 false) (RedisClient.mk "app" "ns" 0 1) [] "k" "t"
      = [RawOp.rawGet "app-ns-k", RawOp.rawSetNX "app-ns-k" "t" 6] ∧
    lockSRawTrace (NewTimeOutLock 5 false) (RedisClient.mk "app" "ns" 0 0) [] "k" "t"
      = [RawOp.rawGet "app-ns-k", RawOp.rawSetNX "app-ns-k" "t" 5] ∧
    (6 : Int) ≠ 5 := by decide

/-- C2 (uncontended acquisition): when the initial read fails with
`redis.Nil`, `Lock` performs exactly one set-if-absent of `name` to the
holder token with the configured lease, and returns true exactly when that
set-if-absent reports boolean true with no error. -/
theorem lock_uncontended_acquisition (tl : TimeoutLocker) (o : OracleOutcomes)
    (name topic : String) (h : o.getOut.Error = some GoErr.redisNil) :
    lockOTrace tl o name topic
      = [BackendOp.get name, BackendOp.setNX name topic tl.TimeOut] ∧
    (lockOResult tl o name topic = true ↔
      o.setNXOut.GetBool.1 = true ∧ o.setNXOut.GetBool.2 = none) := by
  simp [lockOTrace, lockOResult, lockO, TimeoutLocker.Lock, oracle, h,
        Option.isNone_iff_eq_none]

theorem lock_uncontended_acquisition_witness :
    (OracleOutcomes.mk (Outcome.mk (some GoErr.redisNil) none)
        (Outcome.mk none (some (GoValue.vBool true))) (Outcome.mk none none)
        (Outcome.mk none none)).getOut.Error = some GoErr.redisNil ∧
    (lockOTrace (NewTimeOutLock 5 false)
        (OracleOutcomes.mk (Outcome.mk (some GoErr.redisNil) none)
          (Outcome.mk none (some (GoValue.vBool true))) (Outcome.mk none none)
          (Outcome.mk none none)) "k" "t"
      = [BackendOp.get "k", BackendOp.setNX "k" "t" (NewTimeOutLock 5 false).TimeOut] ∧
    (lockOResult (NewTimeOutLock 5 false)
        (OracleOutcomes.mk (Outcome.mk (some GoErr.redisNil) none)
          (Outcome.mk none (some (GoValue.vBool true))) (Outcome.mk none none)
          (Outcome.mk none none)) "k" "t" = true ↔
      (Outcome.mk none (some (GoValue.vBool true))).GetBool.1 = true ∧
      (Outcome.mk none (some (GoValue.vBool true))).GetBool.2 = none)) :=
  ⟨by decide,
    lock_uncontended_acquisition (NewTimeOutLock 5 false)
      (OracleOutcomes.mk (Outcome.mk (some GoErr.redisNil) none)
        (Outcome.mk none (some (GoValue.vBool true))) (Outcome.mk none none)
        (Outcome.mk none none)) "k" "t" (by decide)⟩

/-- C3 (refresh-then-confirm): initial read succeeds with the caller's own
token, reuse enabled, refresh reports true with no error: `Lock` re-reads
and returns true exactly when the re-read carries no error and its value
still equals the holder token. -/
theorem lock_refresh_then_confirm (tl : TimeoutLocker) (o : OracleOutcomes)
    (name topic : String)
    (hge : o.getOut.Error = none)
    (hs : o.getOut.GetString = (topic, none))
    (hre : tl.ReUse = true)
    (hex : o.expireOut.GetBool = (true, none)) :
    lockOTrace tl o name topic
      = [BackendOp.get name, BackendOp.expire name tl.TimeOut, BackendOp.get name] ∧
    (lockOResult tl o name topic = true ↔
      (o.afterOut.Error = none ∧ o.afterOut.GetString = (topic, none))) := by
  obtain ⟨⟨ge, gp⟩, nxo, exo, ⟨ae, ap⟩⟩ := o
  have hge2 : ge = none := hge
  subst hge2
  have hs2 : (Outcome.mk none gp).GetString = (topic, none) := hs
  have hex2 : exo.GetBool = (true, none) := hex
  cases ae with
  | none =>
    simp [lockOTrace, lockOResult, lockO, TimeoutLocker.Lock, oracle, hs2, hre, hex2,
          Prod.ext_iff]
    tauto
  | some e2 =>
    simp [lockOTrace, lockOResult, lockO, TimeoutLocker.Lock, oracle, hs2, hre, hex2]

theorem lock_refresh_then_confirm_witness :
    (OracleOutcomes.mk (Outcome.mk none (some (GoValue.vStr "t")))
        (Outcome.mk none none) (Outcome.mk none (some (GoValue.vBool true)))
        (Outcome.mk none (some (GoValue.vStr "t")))).getOut.Error = none ∧
    (NewTimeOutLock 5 true).ReUse = true ∧
    (lockOTrace (NewTimeOutLock 5 true)
        (OracleOutcomes.mk (Outcome.mk none (some (GoValue.vStr "t")))
          (Outcome.mk none none) (Outcome.mk none (some (GoValue.vBool true)))
          (Outcome.mk none (some (GoValue.vStr "t")))) "k" "t"
      = [BackendOp.get "k", BackendOp.expire "k" (NewTimeOutLock 5 true).TimeOut,
         BackendOp.get "k"] ∧
    (lockOResult (NewTimeOutLock 5 true)
        (OracleOutcomes.mk (Outcome.mk none (some (GoValue.vStr "t")))
          (Outcome.mk none none) (Outcome.mk none (some (GoValue.vBool true)))
          (Outcome.mk none (some (GoValue.vStr "t")))) "k" "t" = true ↔
      ((Outcome.mk none (some (GoValue.vStr "t")) : Outcome).Error = none ∧
        (Outcome.mk none (some (GoValue.vStr "t"))).GetString = ("t", none)))) :=
  ⟨by decide, by decide,
    lock_refresh_then_confirm (NewTimeOutLock 5 true)
      (OracleOutcomes.mk (Outcome.mk none (some (GoValue.vStr "t")))
        (Outcome.mk none none) (Outcome.mk none (some (GoValue.vBool true)))
        (Outcome.mk none (some (GoValue.vStr "t")))) "k" "t"
      (by decide) (by decide) (by decide) (by decide)⟩

/-- C4 (refresh-failure fallback): initial read succeeds with the caller's
own token, reuse enabled, but the refresh reports boolean false or an
error: `Lock` falls back to a set-if-absent with the configured lease and
returns exactly its success. -/
theorem lock_refresh_failure_fallback (tl : TimeoutLocker) (o : OracleOutcomes)
    (name topic : String)
    (hge : o.getOut.Error = none)
    (hs : o.getOut.GetString = (topic, none))
    (hre : tl.ReUse = true)
    (hex : o.expireOut.GetBool.1 = false ∨ o.expireOut.GetBool.2 ≠ none) :
    lockOTrace tl o name topic
      = [BackendOp.get name, BackendOp.expire name tl.TimeOut,
         BackendOp.setNX name topic tl.TimeOut] ∧
    (lockOResult tl o name topic = true ↔
      o.setNXOut.GetBool.1 = true ∧ o.setNXOut.GetBool.2 = none) := by
  obtain ⟨⟨ge, gp⟩, nxo, exo, afo⟩ := o
  have hge2 : ge = none := hge
  subst hge2
  have hs2 : (Outcome.mk none gp).GetString = (topic, none) := hs
  have hex2 : exo.GetBool.1 = false ∨ exo.GetBool.2 ≠ none := hex
  have hcond : (exo.GetBool.1 && exo.GetBool.2.isNone) = false := by
    rcases hex2 with h | h
    · simp [h]
    · cases hx : exo.GetBool.2 with
      | none => exact absurd hx h
      | some e2 => simp [hx]
  simp [lockOTrace, lockOResult, lockO, TimeoutLocker.Lock, oracle, hs2, hre, hcond,
        Option.isNone_iff_eq_none]

theorem lock_refresh_failure_fallback_witness :
    (OracleOutcomes.mk (Outcome.mk none (some (GoValue.vStr "t")))
        (Outcome.mk none (some (GoValue.vBool true)))
        (Outcome.mk none (some (GoValue.vBool false)))
        (Outcome.mk none none)).getOut.Error = none ∧
    ((OracleOutcomes.mk (Outcome.mk none (some (GoValue.vStr "t")))
        (Outcome.mk none (some (GoValue.vBool true)))
        (Outcome.mk none (some (GoValue.vBool false)))
        (Outcome.mk none none)).expireOut.GetBool.1 = false ∨
      (OracleOutcomes.mk (Outcome.mk none (some (GoValue.vStr "t")))
        (Outcome.mk none (some (GoValue.vBool true)))
        (Outcome.mk none (some (GoValue.vBool false)))
        (Outcome.mk none none)).expireOut.GetBool.2 ≠ none) ∧
    (lockOTrace (NewTimeOutLock 5 true)
        (OracleOutcomes.mk (Outcome.mk none (some (GoValue.vStr "t")))
          (Outcome.mk none (some (GoValue.vBool true)))
          (Outcome.mk none (some (GoValue.vBool false)))
          (Outcome.mk none none)) "k" "t"
      = [BackendOp.get "k", BackendOp.expire "k" (NewTimeOutLock 5 true).TimeOut,
         BackendOp.setNX "k" "t" (NewTimeOutLock 5 true).TimeOut] ∧
    (lockOResult (NewTimeOutLock 5 true)
        (OracleOutcomes.mk (Outcome.mk none (some (GoValue.vStr "t")))
          (Outcome.mk none (some (GoValue.vBool true)))
          (Outcome.mk none (some (GoValue.vBool false)))
          (Outcome.mk none none)) "k" "t" = true ↔
      (Outcome.mk none (some (GoValue.vBool true))).GetBool.1 = true ∧
      (Outcome.mk none (some (GoValue.vBool true))).GetBool.2 = none)) :=
  ⟨by decide, by decide,
    lock_refresh_failure_fallback (NewTimeOutLock 5 true)
      (OracleOutcomes.mk (Outcome.mk none (some (GoValue.vStr "t")))
        (Outcome.mk none (some (GoValue.vBool true)))
        (Outcome.mk none (some (GoValue.vBool false)))
        (Outcome.mk none none)) "k" "t"
      (by decide) (by decide) (by decide) (Or.inl (by decide))⟩

/-- C5 (fail-closed on backend error): a read error other than `redis.Nil`
makes `Lock` return false with no further backend call of any kind. -/
theorem lock_fail_closed_on_error (tl : TimeoutLocker) (o : OracleOutcomes)
    (name topic : String) (e : GoErr)
    (h : o.getOut.Error = some e) (hne : e ≠ GoErr.redisNil) :
    lockOResult tl o name topic = false ∧ lockOTrace tl o name topic = [BackendOp.get name] := by
  obtain ⟨⟨ge, gp⟩, nxo, exo, afo⟩ := o
  have hge2 : ge = some e := h
  subst hge2
  simp [lockOResult, lockOTrace, lockO, TimeoutLocker.Lock, oracle, hne]

theorem lock_fail_closed_on_error_witness :
    (OracleOutcomes.mk (Outcome.mk (some (GoErr.other "connection refused")) none)
        (Outcome.mk none none) (Outcome.mk none none)
        (Outcome.mk none none)).getOut.Error = some (GoErr.other "connection refused") ∧
    GoErr.other "connection refused" ≠ GoErr.redisNil ∧
    (lockOResult (NewTimeOutLock 5 true)
        (OracleOutcomes.mk (Outcome.mk (some (GoErr.other "connection refused")) none)
          (Outcome.mk none none) (Outcome.mk none none) (Outcome.mk none none)) "k" "t"
      = false ∧
    lockOTrace (NewTimeOutLock 5 true)
        (OracleOutcomes.mk (Outcome.mk (some (GoErr.other "connection refused")) none)
          (Outcome.mk none none) (Outcome.mk none none) (Outcome.mk none none)) "k" "t"
      = [BackendOp.get "k"]) :=
  ⟨by decide, by decide,
    lock_fail_closed_on_error (NewTimeOutLock 5 true)
      (OracleOutcomes.mk (Outcome.mk (some (GoErr.other "connection refused")) none)
        (Outcome.mk none none) (Outcome.mk none none) (Outcome.mk none none)) "k" "t"
      (GoErr.other "connection refused") (by decide) (by decide)⟩

/-- C6 (foreign holder rejection): a successful read whose string value
differs from the holder token makes `Lock` return false with no write,
whatever the reuse flag. -/
theorem lock_foreign_holder_rejection (tl : TimeoutLocker) (o : OracleOutcomes)
    (name topic : String)
    (hge : o.getOut.Error = none)
    (hs2 : o.getOut.GetString.2 = none)
    (hs1 : o.getOut.GetString.1 ≠ topic) :
    lockOResult tl o name topic = false ∧ lockOTrace tl o name topic = [BackendOp.get name] := by
  obtain ⟨⟨ge, gp⟩, nxo, exo, afo⟩ := o
  have hge2 : ge = none := hge
  subst hge2
  have hb : (Outcome.mk none gp).GetString.2 = none := hs2
  have ha : (Outcome.mk none gp).GetString.1 ≠ topic := hs1
  simp [lockOResult, lockOTrace, lockO, TimeoutLocker.Lock, oracle, hb, ha]

theorem lock_foreign_holder_rejection_witness :
    (OracleOutcomes.mk (Outcome.mk none (some (GoValue.vStr "other")))
        (Outcome.mk none none) (Outcome.mk none none)
        (Outcome.mk none none)).getOut.Error = none ∧
    (OracleOutcomes.mk (Outcome.mk none (some (GoValue.vStr "other")))
        (Outcome.mk none none) (Outcome.mk none none)
        (Outcome.mk none none)).getOut.GetString.1 ≠ "t" ∧
    (lockOResult (NewTimeOutLock 5 true)
        (OracleOutcomes.mk (Outcome.mk none (some (GoValue.vStr "other")))
          (Outcome.mk none none) (Outcome.mk none none) (Outcome.mk none none)) "k" "t"
      = false ∧
    lockOTrace (NewTimeOutLock 5 true)
        (OracleOutcomes.mk (Outcome.mk none (some (GoValue.vStr "other")))
          (Outcome.mk none none) (Outcome.mk none none) (Outcome.mk none none)) "k" "t"
      = [BackendOp.get "k"]) :=
  ⟨by decide, by decide,
    lock_foreign_holder_rejection (NewTimeOutLock 5 true)
      (OracleOutcomes.mk (Outcome.mk none (some (GoValue.vStr "other")))
        (Outcome.mk none none) (Outcome.mk none none) (Outcome.mk none none)) "k" "t"
      (by decide) (by decide) (by decide)⟩

/-- C7 (no reuse without flag): with reuse disabled, a successful read of
the caller's own token still makes `Lock` return false with no write. -/
theorem lock_no_reuse_without_flag (tl : TimeoutLocker) (o : OracleOutcomes)
    (name topic : String)
    (hre : tl.ReUse = false)
    (hge : o.getOut.Error = none)
    (hs : o.getOut.GetString = (topic, none)) :
    lockOResult tl o name topic = false ∧ lockOTrace tl o name topic = [BackendOp.get name] := by
  obtain ⟨⟨ge, gp⟩, nxo, exo, afo⟩ := o
  have hge2 : ge = none := hge
  subst hge2
  have hs2 : (Outcome.mk none gp).GetString = (topic, none) := hs
  simp [lockOResult, lockOTrace, lockO, TimeoutLocker.Lock, oracle, hre, hs2]

theorem lock_no_reuse_without_flag_witness :
    (NewTimeOutLock 5 false).ReUse = false ∧
    (OracleOutcomes.mk (Outcome.mk none (some (GoValue.vStr "t")))
        (Outcome.mk none none) (Outcome.mk none none)
        (Outcome.mk none none)).getOut.GetString = ("t", none) ∧
    (lockOResult (NewTimeOutLock 5 false)
        (OracleOutcomes.mk (Outcome.mk none (some (GoValue.vStr "t")))
          (Outcome.mk none none) (Outcome.mk none none) (Outcome.mk none none)) "k" "t"
      = false ∧
    lockOTrace (NewTimeOutLock 5 false)
        (OracleOutcomes.mk (Outcome.mk none (some (GoValue.vStr "t")))
          (Outcome.mk none none) (Outcome.mk none none) (Outcome.mk none none)) "k" "t"
      = [BackendOp.get "k"]) :=
  ⟨by decide, by decide,
    lock_no_reuse_without_flag (NewTimeOutLock 5 false)
      (OracleOutcomes.mk (Outcome.mk none (some (GoValue.vStr "t")))
        (Outcome.mk none none) (Outcome.mk none none) (Outcome.mk none none)) "k" "t"
      (by decide) (by decide) (by decide)⟩

/-- C10 (unparseable stored value treated as own lock): when the initial
read succeeds but `GetString` on it errors, `Lock` behaves exactly — same
result, same backend calls, same final state — as if the read had returned
the caller's own token: the foreign-holder rejection branch is skipped and
the run continues into the reuse check and, with reuse enabled, the
refresh/confirm or fallback path. -/
theorem lock_unparseable_value_as_owner (tl : TimeoutLocker) (o : OracleOutcomes)
    (name topic : String)
    (hge : o.getOut.Error = none)
    (hts : o.getOut.GetString.2 ≠ none) :
    lockO tl o name topic
      = lockO tl (OracleOutcomes.mk (Outcome.mk none (some (GoValue.vStr topic)))
          o.setNXOut o.expireOut o.afterOut) name topic := by
  obtain ⟨⟨ge, gp⟩, nxo, exo, afo⟩ := o
  have hge2 : ge = none := hge
  subst hge2
  have hts2 : (Outcome.mk none gp).GetString.2 ≠ none := hts
  have hcond : ¬ ((Outcome.mk none gp).GetString.2 = none
      ∧ (Outcome.mk none gp).GetString.1 ≠ topic) := fun hc => hts2 hc.1
  have hrhs : ¬ ((Outcome.mk none (some (GoValue.vStr topic))).GetString.2 = none
      ∧ (Outcome.mk none (some (GoValue.vStr topic))).GetString.1 ≠ topic) := by
    simp [Outcome.GetString]
  simp [lockO, TimeoutLocker.Lock, oracle, hcond, hrhs]

theorem lock_unparseable_value_as_owner_witness :
    (OracleOutcomes.mk (Outcome.mk none (some (GoValue.vInt 7)))
        (Outcome.mk none (some (GoValue.vBool true)))
        (Outcome.mk none (some (GoValue.vBool true)))
        (Outcome.mk none (some (GoValue.vStr "t")))).getOut.Error = none ∧
    (OracleOutcomes.mk (Outcome.mk none (some (GoValue.vInt 7)))
        (Outcome.mk none (some (GoValue.vBool true)))
        (Outcome.mk none (some (GoValue.vBool true)))
        (Outcome.mk none (some (GoValue.vStr "t")))).getOut.GetString.2 ≠ none ∧
    lockO (NewTimeOutLock 5 true)
        (OracleOutcomes.mk (Outcome.mk none (some (GoValue.vInt 7)))
          (Outcome.mk none (some (GoValue.vBool true)))
          (Outcome.mk none (some (GoValue.vBool true)))
          (Outcome.mk none (some (GoValue.vStr "t")))) "k" "t"
      = lockO (NewTimeOutLock 5 true)
          (OracleOutcomes.mk (Outcome.mk none (some (GoValue.vStr "t")))
            (Outcome.mk none (some (GoValue.vBool true)))
            (Outcome.mk none (some (GoValue.vBool true)))
            (Outcome.mk none (some (GoValue.vStr "t")))) "k" "t" ∧
    lockOResult (NewTimeOutLock 5 true)
        (OracleOutcomes.mk (Outcome.mk none (some (GoValue.vInt 7)))
          (Outcome.mk none (some (GoValue.vBool true)))
          (Outcome.mk none (some (GoValue.vBool true)))
          (Outcome.mk none (some (GoValue.vStr "t")))) "k" "t" = true ∧
    lockOResult (NewTimeOutLock 5 false)
        (OracleOutcomes.mk (Outcome.mk none (some (GoValue.vInt 7)))
          (Outcome.mk none (some (GoValue.vBool true)))
          (Outcome.mk none (some (GoValue.vBool true)))
          (Outcome.mk none (some (GoValue.vStr "t")))) "k" "t" = false :=
  ⟨by decide, by decide,
    lock_unparseable_value_as_owner (NewTimeOutLock 5 true)
      (OracleOutcomes.mk (Outcome.mk none (some (GoValue.vInt 7)))
        (Outcome.mk none (some (GoValue.vBool true)))
        (Outcome.mk none (some (GoValue.vBool true)))
        (Outcome.mk none (some (GoValue.vStr "t")))) "k" "t" (by decide) (by decide),
    by decide, by decide⟩

/-- Contract of `GetInt64` in the spec's terms, amended: a native `int64` is
returned with no error; a string is parsed, a successful parse returning the
value with no error; a string that fails to parse yields some error that is
NOT the `TypeMatchError`; only a value that is neither an `int64` nor a
string fails with the `TypeMatchError`. -/
def int64AccessorSpec (oc : Outcome) : Prop :=
  match oc.Primordial with
  | some (GoValue.vInt i) => oc.GetInt64 = (i, none)
  | some (GoValue.vStr s) =>
    match parseInt64 s with
    | some v => oc.GetInt64 = (v, none)
    | none => oc.GetInt64.2 ≠ none ∧ oc.GetInt64.2 ≠ some GoErr.typeMatch
  | _ => oc.GetInt64.2 = some GoErr.typeMatch

/-- Contract of `GetFloat64` in the spec's terms, amended as for
`GetInt64`: a native `float64` is returned with no error, a string that
`ParseFloat` accepts yields the parsed value with no error, a string it
rejects yields some error that is not the `TypeMatchError`, anything else
fails with the `TypeMatchError`. -/
def float64AccessorSpec (oc : Outcome) : Prop :=
  match oc.Primordial with
  | some (GoValue.vFloat f) => oc.GetFloat64 = (f, none)
  | some (GoValue.vStr s) =>
    match parseFloat64 s with
    | some v => oc.GetFloat64 = (v, none)
    | none => oc.GetFloat64.2 ≠ none ∧ oc.GetFloat64.2 ≠ some GoErr.typeMatch
  | _ => oc.GetFloat64.2 = some GoErr.typeMatch

/-- Contract of `GetBool` in the spec's terms, amended as for `GetInt64`. -/
def boolAccessorSpec (oc : Outcome) : Prop :=
  match oc.Primordial with
  | some (GoValue.vBool b) => oc.GetBool = (b, none)
  | some (GoValue.vStr s) =>
    match parseBool s with
    | some v => oc.GetBool = (v, none)
    | none => oc.GetBool.2 ≠ none ∧ oc.GetBool.2 ≠ some GoErr.typeMatch
  | _ => oc.GetBool.2 = some GoErr.typeMatch

/-- Contract of `GetString` in the spec's terms: a native string is returned
with no error; anything else fails with the `TypeMatchError` (there is no
parse step for strings). -/
def stringAccessorSpec (oc : Outcome) : Prop :=
  match oc.Primordial with
  | some (GoValue.vStr s) => oc.GetString = (s, none)
  | _ => oc.GetString.2 = some GoErr.typeMatch

/-- C9 (amended): every typed accessor — `GetInt64`, `GetFloat64`,
`GetBool`, `GetString` — meets the amended coercion contract: native values
are returned unchanged with no error, parseable strings are parsed, a
string that fails to parse yields the parse error — which is not the
`TypeMatchError` — and only non-native, non-string values fail with the
`TypeMatchError`. -/
theorem typed_coercion_contract_amended (oc : Outcome) :
    int64AccessorSpec oc ∧ float64AccessorSpec oc ∧ boolAccessorSpec oc ∧
      stringAccessorSpec oc := by
  obtain ⟨er, pr⟩ := oc
  refine ⟨?_, ?_, ?_, ?_⟩
  · cases pr with
    | none => simp [int64AccessorSpec, Outcome.GetInt64]
    | some v =>
      cases v with
      | vStr s =>
        cases hp : parseInt64 s with
        | none => simp [int64AccessorSpec, Outcome.GetInt64, hp]
        | some n => simp [int64AccessorSpec, Outcome.GetInt64, hp]
      | vBool b => simp [int64AccessorSpec, Outcome.GetInt64]
      | vInt i => simp [int64AccessorSpec, Outcome.GetInt64]
      | vFloat f => simp [int64AccessorSpec, Outcome.GetInt64]
  · cases pr with
    | none => simp [float64AccessorSpec, Outcome.GetFloat64]
    | some v =>
      cases v with
      | vStr s =>
        cases hp : parseFloat64 s with
        | none => simp [float64AccessorSpec, Outcome.GetFloat64, hp]
        | some f => simp [float64AccessorSpec, Outcome.GetFloat64, hp]
      | vBool b => simp [float64AccessorSpec, Outcome.GetFloat64]
      | vInt i => simp [float64AccessorSpec, Outcome.GetFloat64]
      | vFloat f => simp [float64AccessorSpec, Outcome.GetFloat64]
  · cases pr with
    | none => simp [boolAccessorSpec, Outcome.GetBool]
    | some v =>
      cases v with
      | vStr s =>
        cases hp : parseBool s with
        | none => simp [boolAccessorSpec, Outcome.GetBool, hp]
        | some b => simp [boolAccessorSpec, Outcome.GetBool, hp]
      | vBool b => simp [boolAccessorSpec, Outcome.GetBool]
      | vInt i => simp [boolAccessorSpec, Outcome.GetBool]
      | vFloat f => simp [boolAccessorSpec, Outcome.GetBool]
  · cases pr with
    | none => simp [stringAccessorSpec, Outcome.GetString]
    | some v =>
      cases v with
      | vStr s => simp [stringAccessorSpec, Outcome.GetString]
      | vBool b => simp [stringAccessorSpec, Outcome.GetString]
      | vInt i => simp [stringAccessorSpec, Outcome.GetString]
      | vFloat f => simp [stringAccessorSpec, Outcome.GetString]

/-- C9 counterexample: the outcome holding the string "abc" admits no
coercion to `int64` (it is not native and the parse fails), yet `GetInt64`
fails with the `strconv` parse error, not with the `TypeMatchError`. -/
theorem getInt64_parse_error_counterexample :
    parseInt64 "abc" = none ∧
    (Outcome.mk none (some (GoValue.vStr "abc"))).GetInt64
      = (0, some (GoErr.numError "ParseInt" "abc")) ∧
    (Outcome.mk none (some (GoValue.vStr "abc"))).GetInt64.2 ≠ some GoErr.typeMatch := by
  decide
